import Mathlib

/-!
Verification development for the Proyecto-Financiero-IA repository.

The repository is a React dashboard whose displayed numbers are hard-coded
mock objects; the signal-fusion / strategy / backtesting engine described in
its documentation is not implemented in the source.  Definitions below are
therefore of two kinds:

* faithful shallow embeddings of the code that does exist
  (`recomendacion` from `PredictionModule.jsx`, the `ApiClient` mock methods,
  `generateSimpleChart` from the analysis modules), and
* definitions whose doc comment starts with `Modelled from the spec:` for the
  engine components (SignalAggregator, BacktestEngine, PerformanceAnalyzer)
  that the specification describes but that are absent from the source.

Numbers are embedded as rationals (`ℚ`); JavaScript `Math.random()` and
`Math.sin` are passed in explicitly as function arguments so that the
stateless parts stay pure functions.
-/

namespace ProyectoFinanciero

/-- Classifier direction of a `Signal` (spec section 3: direction ∈ up/down). -/
inductive Direction where
  | up : Direction
  | down : Direction
deriving DecidableEq

/-- Sign contributed by the classifier: +1 for up, -1 for down. -/
def dirSign : Direction → ℚ
  | Direction.up => 1
  | Direction.down => -1

/-- Error raised by the aggregator on invalid input (spec section 7). -/
inductive InvalidSignalError where
  | invalidSignal : InvalidSignalError
deriving DecidableEq

instance {ε α : Type _} [DecidableEq ε] [DecidableEq α] :
    DecidableEq (Except ε α) := fun x y =>
  match x, y with
  | Except.error e, Except.error f =>
      if h : e = f then isTrue (congrArg Except.error h)
      else isFalse (fun hc => h (Except.error.inj hc))
  | Except.error _, Except.ok _ => isFalse (fun hc => Except.noConfusion hc)
  | Except.ok _, Except.error _ => isFalse (fun hc => Except.noConfusion hc)
  | Except.ok a, Except.ok b =>
      if h : a = b then isTrue (congrArg Except.ok h)
      else isFalse (fun hc => h (Except.ok.inj hc))

/-- Modelled from the spec: `SignalAggregator.fuse` (spec section 4.1).  The
repository contains no implementation of the aggregator (spec section 9 notes
the engine is entirely mocked in the UI), so this definition follows the
spec text: `pct = (forecast - current)/current`; magnitude `min 1 (|pct|/cap)`;
halved when the sign of `pct` disagrees with the classifier; forced to 0 when
`pct = 0`; result `confidence * sign * magnitude` clamped to [-1,1]; fails
with `InvalidSignalError` when confidence is outside [0,1] or the current
price is non-positive. -/
def fuse (direction : Direction) (forecast currentPrice confidence cap : ℚ) :
    Except InvalidSignalError ℚ :=
  if confidence < 0 ∨ 1 < confidence ∨ currentPrice ≤ 0 then
    Except.error InvalidSignalError.invalidSignal
  else
    let pct := (forecast - currentPrice) / currentPrice
    let mag0 := min 1 (|pct| / cap)
    let mag :=
      if pct = 0 then 0
      else if (0 < pct ∧ direction = Direction.down) ∨
              (pct < 0 ∧ direction = Direction.up) then mag0 / 2
      else mag0
    Except.ok (max (-1) (min 1 (confidence * dirSign direction * mag)))

/-- SVM output as stored in `PREDICTION_DATA` (`subida` / `bajada`). -/
inductive SvmDir where
  | subida : SvmDir
  | bajada : SvmDir
deriving DecidableEq

/-- The two recommendation badges the UI can render. -/
inductive Recommendation where
  | comprar : Recommendation
  | vender : Recommendation
deriving DecidableEq

/-- Embedding of the recommendation logic of `PredictionModule.jsx`
(lines 348-365, identical in the App bundle): the badge is COMPRAR exactly
when `svm === 'subida' && lstm > currentPrice`, and VENDER otherwise. -/
def recomendacion (svm : SvmDir) (lstm currentPrice : ℚ) : Recommendation :=
  if svm = SvmDir.subida ∧ currentPrice < lstm then Recommendation.comprar
  else Recommendation.vender

/-- One prediction record of `PREDICTION_DATA` / `generateMockPredictions`. -/
structure Prediction where
  svm : SvmDir
  lstm : ℚ
  confidence : ℚ
deriving DecidableEq

/-- Embedding of `ApiClient.generateMockPredictions` (part_000 lines 947-959):
a fixed lookup table with AAPL as fallback; no validation is performed. -/
def generateMockPredictions (symbol : String) : Prediction :=
  if symbol = "AAPL" then ⟨SvmDir.subida, 195.50, 0.78⟩
  else if symbol = "GOOGL" then ⟨SvmDir.bajada, 170.20, 0.65⟩
  else if symbol = "MSFT" then ⟨SvmDir.subida, 430.75, 0.82⟩
  else if symbol = "TSLA" then ⟨SvmDir.bajada, 240.90, 0.71⟩
  else if symbol = "AMZN" then ⟨SvmDir.subida, 185.30, 0.69⟩
  else if symbol = "BTC-USD" then ⟨SvmDir.subida, 70000.50, 0.75⟩
  else if symbol = "ETH-USD" then ⟨SvmDir.bajada, 3300.78, 0.68⟩
  else ⟨SvmDir.subida, 195.50, 0.78⟩

/-- Base row of the `ApiClient.generateMockMarketData` table. -/
structure MarketBase where
  price : ℚ
  change : ℚ
  changePercent : ℚ
deriving DecidableEq

/-- Embedding of the `baseData` table inside
`ApiClient.generateMockMarketData` (part_000 lines 921-932), with the
`baseData[symbol] || baseData['AAPL']` fallback. -/
def baseDataFor (symbol : String) : MarketBase :=
  if symbol = "AAPL" then ⟨190.50, 3.21, 1.72⟩
  else if symbol = "GOOGL" then ⟨175.20, -1.80, -1.02⟩
  else if symbol = "MSFT" then ⟨420.75, 5.25, 1.27⟩
  else if symbol = "TSLA" then ⟨248.90, -8.10, -3.15⟩
  else if symbol = "AMZN" then ⟨178.30, 3.45, 1.97⟩
  else if symbol = "BTC-USD" then ⟨67890.50, 1234.50, 1.85⟩
  else if symbol = "ETH-USD" then ⟨3456.78, -89.12, -2.51⟩
  else ⟨190.50, 3.21, 1.72⟩

/-- Record returned by `ApiClient.generateMockMarketData`; the random volume
(`Math.floor(Math.random() * 100000000)`) is passed in explicitly. -/
structure MarketRecord where
  symbol : String
  price : ℚ
  change : ℚ
  changePercent : ℚ
  volume : ℕ
  high : ℚ
  low : ℚ
  openPrice : ℚ
deriving DecidableEq

/-- Embedding of `ApiClient.generateMockMarketData` (part_000 lines 921-944):
looks the symbol up (AAPL fallback) and derives
`high = price * 1.05`, `low = price * 0.95`, `open = price * 0.98`. -/
def generateMockMarketData (symbol : String) (randVolume : ℕ) : MarketRecord :=
  let d := baseDataFor symbol
  { symbol := symbol
    price := d.price
    change := d.change
    changePercent := d.changePercent
    volume := randVolume
    high := d.price * 1.05
    low := d.price * 0.95
    openPrice := d.price * 0.98 }

/-- One position of the mock portfolio returned by `ApiClient.getPortfolio`. -/
structure PortfolioPosition where
  symbol : String
  quantity : ℚ
  avgPrice : ℚ
deriving DecidableEq

/-- The `data` payload of `ApiClient.getPortfolio`. -/
structure PortfolioData where
  cash : ℚ
  positions : List PortfolioPosition
  totalValue : ℚ
deriving DecidableEq

/-- Embedding of the mock portfolio hard-coded in `ApiClient.getPortfolio`
(part_000 lines 875-892). -/
def getPortfolioData : PortfolioData :=
  { cash := 10000
    positions := [⟨"AAPL", 10, 185.50⟩, ⟨"GOOGL", 5, 170.20⟩]
    totalValue := 12000 }

/-- Mark-to-market value of a portfolio payload at the given prices:
`cash + Σ position.quantity * price(symbol)` (spec section 3 invariant). -/
def markToMarket (p : PortfolioData) (priceOf : String → ℚ) : ℚ :=
  p.cash + (p.positions.map (fun pos => pos.quantity * priceOf pos.symbol)).sum

/-- Current price of a symbol according to the same client mock market table. -/
def mockPrice (symbol : String) : ℚ := (baseDataFor symbol).price

/-- User record produced by `ApiClient.login`. -/
structure LoginUser where
  username : String
  role : String
  full_name : String
deriving DecidableEq

/-- Response of `ApiClient.login`. -/
structure LoginResult where
  success : Bool
  token : String
  user : LoginUser
  source : String
deriving DecidableEq

/-- JavaScript `credentials.username || 'demo'`: an absent (`undefined`) or
empty username is falsy and replaced by the default. -/
def jsOrDemo : Option String → String
  | none => "demo"
  | some s => if s = "" then "demo" else s

/-- Embedding of `ApiClient.login` (part_000 lines 855-872).  `Date.now()` is
passed in as `now`.  The promise always resolves with `success: true`;
`full_name` is `Administrador` exactly when the supplied username is the
string `admin` (strict equality against a possibly-undefined field). -/
def login (username : Option String) (_password : Option String) (now : ℕ) :
    LoginResult :=
  { success := true
    token := "offline_token_" ++ toString now
    user :=
      { username := jsOrDemo username
        role := "demo"
        full_name := if username = some "admin" then "Administrador"
                     else "Usuario Demo" }
    source := "offline" }

/-- Mutable state of an `ApiClient` instance as set by its constructor
(part_000 lines 814-824).  Listener callbacks are modelled by handles. -/
structure ApiClientState where
  baseUrl : String
  maxRetries : ℕ
  retryDelay : ℕ
  connectionStatus : String
  listeners : List ℕ
  offlineMode : Bool
deriving DecidableEq

/-- The state built by `new ApiClient(...)`. -/
def ApiClientState.init : ApiClientState :=
  { baseUrl := "offline"
    maxRetries := 0
    retryDelay := 0
    connectionStatus := "offline"
    listeners := []
    offlineMode := true }

/-- The operations a caller can perform on the client. -/
inductive ClientOp where
  | getMarketData (symbol : String) : ClientOp
  | getPredictions (symbol : String) : ClientOp
  | loginOp (username : Option String) : ClientOp
  | getPortfolioOp : ClientOp
  | getNews : ClientOp
  | getConnectionStatusOp : ClientOp
  | addConnectionListener (callback : ℕ) : ClientOp
  | removeConnectionListener (callback : ℕ) : ClientOp
  | checkConnectionOp : ClientOp

/-- State transition of one client operation.  In the source no method writes
any instance field: the two listener methods have empty bodies (part_000
lines 966-972) and every other method only builds a response object. -/
def applyOp (st : ApiClientState) : ClientOp → ApiClientState
  | ClientOp.getMarketData _ => st
  | ClientOp.getPredictions _ => st
  | ClientOp.loginOp _ => st
  | ClientOp.getPortfolioOp => st
  | ClientOp.getNews => st
  | ClientOp.getConnectionStatusOp => st
  | ClientOp.addConnectionListener _ => st
  | ClientOp.removeConnectionListener _ => st
  | ClientOp.checkConnectionOp => st

/-- State after a sequence of operations starting from the constructor. -/
def runOps (ops : List ClientOp) : ApiClientState :=
  ops.foldl applyOp ApiClientState.init

/-- Embedding of `ApiClient.getConnectionStatus` (part_000 lines 961-964):
returns the literal string without consulting the state. -/
def getConnectionStatus (_st : ApiClientState) : String := "offline"

/-- Embedding of `ApiClient.checkConnection` (part_000 lines 974-976). -/
def checkConnection (_st : ApiClientState) : Bool := false

/-- JavaScript `Number.prototype.toFixed(2)` on the values produced here:
round to the nearest hundredth. -/
def toFixed2 (x : ℚ) : ℚ := (round (100 * x) : ℚ) / 100

/-- Embedding of `AnalysisModule.generateSimpleChart` (part_000 lines
157-172, identically in part_001 lines 49-72): a 31-point series for
`i = 30 .. 0` with `price = basePrice * (1 + variation)` and
`variation = (Math.sin(i * 0.1) + Math.random() * 0.4 - 0.2) * 0.05`.
`Math.sin` and the stream of `Math.random()` draws (one per iteration, in
iteration order) are passed in explicitly. -/
def generateSimpleChart (basePrice : ℚ) (jsSin : ℚ → ℚ) (rand : ℕ → ℚ) :
    List (ℕ × ℚ) :=
  (List.range 31).map (fun k =>
    let i : ℕ := 30 - k
    let variation := (jsSin ((i : ℚ) * 0.1) + rand k * 0.4 - 0.2) * 0.05
    (i, toFixed2 (basePrice * (1 + variation))))

/-- Modelled from the spec: the per-step drawdowns
`(peak - equity_i) / peak` against the running peak (spec section 4.4);
the PerformanceAnalyzer is absent from the source. -/
def drawdowns (peak : ℚ) : List ℚ → List ℚ
  | [] => []
  | e :: es =>
      let p := max peak e
      (p - e) / p :: drawdowns p es

/-- Modelled from the spec: `max_drawdown` of an equity curve, the maximum
of the running-peak drawdowns (spec section 4.4); 0 for an empty curve. -/
def maxDrawdown (curve : List ℚ) : ℚ :=
  (drawdowns 0 curve).foldl max 0

/-- A price bar as consumed by the backtest step (spec section 3). -/
structure Bar where
  high : ℚ
  low : ℚ
  close : ℚ
deriving DecidableEq

/-- Modelled from the spec: `StrategyConfig` (spec section 3); the strategy
and backtest logic is absent from the source. -/
structure StrategyConfig where
  entry_threshold : ℚ
  position_fraction : ℚ
  stop_loss_pct : ℚ
  take_profit_pct : ℚ
  commission_bps : ℚ
deriving DecidableEq

/-- Spec section 4.2 default conservative profile. -/
def conservativeConfig : StrategyConfig := ⟨0.6, 0.10, 0.03, 0.05, 0⟩

/-- Spec section 4.2 default aggressive profile. -/
def aggressiveConfig : StrategyConfig := ⟨0.30, 0.40, 0.08, 0.15, 0⟩

/-- Modelled from the spec: the per-asset backtest state (spec section 4.3):
cash, the open long position (quantity and entry price) if any, and the
number of Trades emitted so far. -/
structure BTState where
  cash : ℚ
  pos : Option (ℚ × ℚ)
  trades : ℕ
deriving DecidableEq

/-- Modelled from the spec: one time step of the BacktestEngine (spec
section 4.3): first evaluate stop-loss / take-profit intra-bar against the
bar's low/high, then apply the StrategyPolicy decision for the bar's score
(entry when flat and `entry_threshold ≤ score`, exit when long and
`score ≤ -entry_threshold`) at the bar's close. -/
def btStep (cfg : StrategyConfig) (st : BTState) (bar : Bar)
    (signal : Option ℚ) : BTState :=
  let fee := cfg.commission_bps / 10000
  let st1 :=
    match st.pos with
    | some (q, entry) =>
        let slPrice := entry * (1 - cfg.stop_loss_pct)
        let tpPrice := entry * (1 + cfg.take_profit_pct)
        if bar.low ≤ slPrice then
          { cash := st.cash + q * slPrice * (1 - fee)
            pos := none
            trades := st.trades + 1 }
        else if tpPrice ≤ bar.high then
          { cash := st.cash + q * tpPrice * (1 - fee)
            pos := none
            trades := st.trades + 1 }
        else st
    | none => st
  match signal with
  | none => st1
  | some score =>
      match st1.pos with
      | none =>
          if cfg.entry_threshold ≤ score then
            let qty := cfg.position_fraction * st1.cash / bar.close
            if qty = 0 then st1
            else
              { cash := st1.cash - qty * bar.close * (1 + fee)
                pos := some (qty, bar.close)
                trades := st1.trades }
          else st1
      | some (q, _entry) =>
          if score ≤ -cfg.entry_threshold then
            { cash := st1.cash + q * bar.close * (1 - fee)
              pos := none
              trades := st1.trades + 1 }
          else st1

/-- Modelled from the spec: a full BacktestEngine run over an ordered stream
of bars with optional signals, from an all-cash initial state. -/
def runBacktest (cfg : StrategyConfig) (initialCash : ℚ)
    (stream : List (Bar × Option ℚ)) : BTState :=
  stream.foldl (fun st bs => btStep cfg st bs.1 bs.2) ⟨initialCash, none, 0⟩

/-- Number of Trades emitted by a run. -/
def tradeCount (cfg : StrategyConfig) (initialCash : ℚ)
    (stream : List (Bar × Option ℚ)) : ℕ :=
  (runBacktest cfg initialCash stream).trades

/-- Number of score values in a stream that meet a profile's entry
condition (positive score at or above the entry threshold). -/
def entrySignalCount (cfg : StrategyConfig) (scores : List ℚ) : ℕ :=
  scores.countP (fun s => cfg.entry_threshold ≤ s)

/-- A flat bar at the given price together with a constant score. -/
def flatBar (p : ℚ) (score : ℚ) : Bar × Option ℚ := (⟨p, p, p⟩, some score)

/-- The concrete two-bar stream used to compare the two profiles: price 100
then a 4 percent drop to 96, with a strong positive score throughout. -/
def churnStream : List (Bar × Option ℚ) :=
  [flatBar 100 0.9, flatBar 96 0.9]

/-- Badge computation of the prediction card: the code feeds the mock
prediction and the current price straight into the COMPRAR/VENDER
conditional with no validation of confidence or price. -/
def badgeFor (p : Prediction) (currentPrice : ℚ) : Recommendation :=
  recomendacion p.svm p.lstm currentPrice

/-! ## Helper lemmas -/

theorem le_foldl_max (l : List ℚ) : ∀ a : ℚ, a ≤ l.foldl max a := by
  induction l with
  | nil => intro a; simp
  | cons x xs ih => intro a; exact le_trans (le_max_left a x) (ih (max a x))

theorem mem_le_foldl_max (l : List ℚ) :
    ∀ (a x : ℚ), x ∈ l → x ≤ l.foldl max a := by
  induction l with
  | nil => intro a x hx; simp at hx
  | cons y ys ih =>
      intro a x hx
      rcases List.mem_cons.mp hx with rfl | hx2
      · exact le_trans (le_max_right a x) (le_foldl_max ys (max a x))
      · exact ih (max a y) x hx2

theorem foldl_max_le (l : List ℚ) :
    ∀ a b : ℚ, a ≤ b → (∀ x ∈ l, x ≤ b) → l.foldl max a ≤ b := by
  induction l with
  | nil => intro a b hab _; simpa using hab
  | cons y ys ih =>
      intro a b hab h
      exact ih (max a y) b (max_le hab (h y (by simp)))
        (fun x hx => h x (by simp [hx]))

theorem drawdowns_mem_bounds (curve : List ℚ) :
    ∀ peak : ℚ, 0 ≤ peak → (∀ e ∈ curve, 0 ≤ e) →
      ∀ d ∈ drawdowns peak curve, 0 ≤ d ∧ d ≤ 1 := by
  induction curve with
  | nil => intro peak _ _ d hd; simp [drawdowns] at hd
  | cons e es ih =>
      intro peak hpeak hnn d hd
      simp only [drawdowns] at hd
      have he : (0:ℚ) ≤ e := hnn e (by simp)
      have hp : (0:ℚ) ≤ max peak e := le_trans hpeak (le_max_left _ _)
      rcases List.mem_cons.mp hd with rfl | hd2
      · rcases eq_or_lt_of_le hp with h0 | h0
        · rw [← h0]; norm_num
        · constructor
          · exact div_nonneg (sub_nonneg.mpr (le_max_right _ _)) (le_of_lt h0)
          · rw [div_le_one h0]; linarith
      · exact ih (max peak e) hp (fun x hx => hnn x (by simp [hx])) d hd2

theorem drawdowns_eq_zero_iff_chain (curve : List ℚ) :
    ∀ peak : ℚ, 0 ≤ peak → (∀ e ∈ curve, 0 ≤ e) →
      ((∀ d ∈ drawdowns peak curve, d = 0) ↔
        List.Chain (· ≤ ·) peak curve) := by
  induction curve with
  | nil => intro peak _ _; simp [drawdowns, List.Chain.nil]
  | cons e es ih =>
      intro peak hpeak hnn
      have he : (0:ℚ) ≤ e := hnn e (by simp)
      have hnn2 : ∀ x ∈ es, (0:ℚ) ≤ x := fun x hx => hnn x (by simp [hx])
      simp only [drawdowns, List.mem_cons, List.chain_cons]
      constructor
      · intro h
        have h0 : (max peak e - e) / (max peak e) = 0 := h _ (Or.inl rfl)
        have hpe : peak ≤ e := by
          rcases eq_or_lt_of_le (le_trans hpeak (le_max_left peak e)) with hm | hm
          · have hle : peak ≤ max peak e := le_max_left _ _
            linarith
          · rcases div_eq_zero_iff.mp h0 with hnum | hden
            · have hme : max peak e = e := by linarith
              calc peak ≤ max peak e := le_max_left _ _
                _ = e := hme
            · exact absurd hden (ne_of_gt hm)
        have hmax : max peak e = e := max_eq_right hpe
        refine ⟨hpe, ?_⟩
        exact (ih e he hnn2).mp
          (fun d hd => h d (Or.inr (by rw [hmax]; exact hd)))
      · rintro ⟨hpe, hch⟩
        have hmax : max peak e = e := max_eq_right hpe
        intro d hd
        rcases hd with rfl | hd
        · rw [hmax]; simp
        · rw [hmax] at hd
          exact (ih e he hnn2).mpr hch d hd

theorem countP_le_of_imp (p q : ℚ → Bool) (l : List ℚ)
    (h : ∀ x, p x = true → q x = true) :
    l.countP p ≤ l.countP q := by
  induction l with
  | nil => simp
  | cons y ys ih =>
      rw [List.countP_cons, List.countP_cons]
      by_cases hy : p y = true
      · simp [hy, h y hy]; omega
      · have : (if p y then 1 else 0) = 0 := by simp [hy]
        omega

theorem applyOp_fixes (st : ApiClientState) (op : ClientOp) :
    applyOp st op = st := by
  cases op <;> rfl

theorem runOps_fixed (ops : List ClientOp) :
    runOps ops = ApiClientState.init := by
  unfold runOps
  induction ops with
  | nil => rfl
  | cons o os ih =>
      rw [List.foldl_cons, applyOp_fixes]
      exact ih

/-! ## Claim theorems -/

/-- C2: the portfolio returned by `ApiClient.getPortfolio` violates the
equity-conservation invariant: its cash is nonnegative, but cash plus the
mark-to-market value of its positions at the client's own current prices
(AAPL 190.50, GOOGL 175.20) is 12781, not the recorded totalValue 12000. -/
theorem portfolio_equity_not_conserved :
    0 ≤ getPortfolioData.cash ∧
    markToMarket getPortfolioData mockPrice = 12781 ∧
    getPortfolioData.totalValue = 12000 ∧
    markToMarket getPortfolioData mockPrice ≠ getPortfolioData.totalValue := by
  have h : ("GOOGL" : String) ≠ "AAPL" := by decide
  refine ⟨by norm_num [getPortfolioData], ?_, by norm_num [getPortfolioData], ?_⟩
  · norm_num [markToMarket, getPortfolioData, mockPrice, baseDataFor, h]
  · norm_num [markToMarket, getPortfolioData, mockPrice, baseDataFor, h]

/-- C6: for every non-empty equity curve (equities are nonnegative by the
Portfolio data model: cash ≥ 0 and long-only quantities ≥ 0), the maximum
drawdown against the running peak lies in [0,1] and is 0 exactly when the
curve is non-decreasing. -/
theorem maxDrawdown_range_zero_iff_monotone (curve : List ℚ)
    (hne : curve ≠ []) (hnn : ∀ e ∈ curve, 0 ≤ e) :
    0 ≤ maxDrawdown curve ∧ maxDrawdown curve ≤ 1 ∧
      (maxDrawdown curve = 0 ↔ List.Chain' (· ≤ ·) curve) := by
  have hb := drawdowns_mem_bounds curve 0 le_rfl hnn
  refine ⟨le_foldl_max _ 0,
    foldl_max_le _ 0 1 (by norm_num) (fun x hx => (hb x hx).2), ?_⟩
  constructor
  · intro h
    have hz : ∀ d ∈ drawdowns 0 curve, d = 0 := fun d hd =>
      le_antisymm (h ▸ mem_le_foldl_max _ 0 d hd) (hb d hd).1
    have hchain := (drawdowns_eq_zero_iff_chain curve 0 le_rfl hnn).mp hz
    cases curve with
    | nil => exact List.chain'_nil
    | cons e es => exact (List.chain_cons.mp hchain).2
  · intro hch
    have hz : ∀ d ∈ drawdowns 0 curve, d = 0 := by
      apply (drawdowns_eq_zero_iff_chain curve 0 le_rfl hnn).mpr
      cases curve with
      | nil => exact List.Chain.nil
      | cons e es => exact List.chain_cons.mpr ⟨hnn e (by simp), hch⟩
    exact le_antisymm
      (foldl_max_le _ 0 0 le_rfl (fun x hx => le_of_eq (hz x hx)))
      (le_foldl_max _ 0)

/-- C6 witness: the curve [100, 80, 120] instantiates the theorem; its
maximum drawdown is 1/5. -/
theorem maxDrawdown_witness :
    0 ≤ maxDrawdown [100, 80, 120] ∧ maxDrawdown [100, 80, 120] ≤ 1 ∧
      (maxDrawdown [100, 80, 120] = 0 ↔
        List.Chain' (· ≤ ·) ([100, 80, 120] : List ℚ)) :=
  maxDrawdown_range_zero_iff_monotone [100, 80, 120] (by simp)
    (by intro e he; fin_cases he <;> norm_num)

/-- C7 counterexample: on the two-bar stream (price 100 then 96, score 0.9
throughout) the conservative profile's 3 percent stop-loss fires and emits a
trade while the aggressive profile's 8 percent stop holds, so the
conservative run emits strictly more trades than the aggressive run. -/
theorem trade_counts_not_monotone :
    ¬ (tradeCount conservativeConfig 10000 churnStream ≤
        tradeCount aggressiveConfig 10000 churnStream) := by
  have h1 : tradeCount conservativeConfig 10000 churnStream = 1 := by
    norm_num [tradeCount, runBacktest, churnStream, btStep, flatBar,
      conservativeConfig]
  have h2 : tradeCount aggressiveConfig 10000 churnStream = 0 := by
    norm_num [tradeCount, runBacktest, churnStream, btStep, flatBar,
      aggressiveConfig]
  rw [h1, h2]
  omega

/-- C7 amended: what the thresholds alone do give is monotonicity at the
signal level: on every score stream, the number of scores admitting a
conservative entry is at most the number admitting an aggressive entry,
because the conservative entry threshold (0.6) is at least the aggressive
one (0.3).  Realized trade counts are not monotone (see the
counterexample): differing stop-loss levels let the conservative profile
close and re-open positions the aggressive profile simply holds. -/
theorem entry_signal_count_monotone (scores : List ℚ) :
    entrySignalCount conservativeConfig scores ≤
      entrySignalCount aggressiveConfig scores := by
  unfold entrySignalCount
  apply countP_le_of_imp
  intro s hs
  simp only [decide_eq_true_eq] at hs ⊢
  have hthr : (aggressiveConfig.entry_threshold : ℚ) ≤
      conservativeConfig.entry_threshold := by
    norm_num [aggressiveConfig, conservativeConfig]
  linarith

/-- C8: `ApiClient.login` resolves with success for every credentials input;
the user's full_name is Administrador exactly when the supplied username is
the string admin and Usuario Demo otherwise, and an absent username defaults
to demo. -/
theorem login_always_succeeds (username pw : Option String) (now : ℕ) :
    (login username pw now).success = true ∧
    ((login username pw now).user.full_name = "Administrador" ↔
      username = some "admin") ∧
    (username ≠ some "admin" →
      (login username pw now).user.full_name = "Usuario Demo") ∧
    (username = none → (login username pw now).user.username = "demo") := by
  refine ⟨rfl, ?_, ?_, ?_⟩
  · by_cases h : username = some "admin"
    · simp [login, h]
    · have : ("Usuario Demo" : String) ≠ "Administrador" := by decide
      simp [login, h, this]
  · intro h
    simp [login, h]
  · intro h
    simp [login, h, jsOrDemo]

/-- C8 witness: logging in with no credentials at time 0 succeeds, gets the
demo default username and the Usuario Demo full name. -/
theorem login_witness :
    (login none none 0).success = true ∧
    (login none none 0).user.full_name = "Usuario Demo" ∧
    (login none none 0).user.username = "demo" :=
  ⟨(login_always_succeeds none none 0).1,
    (login_always_succeeds none none 0).2.2.1 (by simp),
    (login_always_succeeds none none 0).2.2.2 rfl⟩

/-- C10: no sequence of client operations changes the `ApiClient` state, the
connection status reported after any such sequence is the literal offline,
`checkConnection` is false in every reachable state, and the listener
registration methods leave the state unchanged, so no reachable state is
online. -/
theorem client_never_online (ops : List ClientOp) :
    runOps ops = ApiClientState.init ∧
    getConnectionStatus (runOps ops) = "offline" ∧
    checkConnection (runOps ops) = false ∧
    (runOps ops).connectionStatus = "offline" ∧
    (∀ st cb, applyOp st (ClientOp.addConnectionListener cb) = st ∧
      applyOp st (ClientOp.removeConnectionListener cb) = st) := by
  refine ⟨runOps_fixed ops, rfl, rfl, ?_, ?_⟩
  · rw [runOps_fixed ops]; rfl
  · intro st cb
    exact ⟨rfl, rfl⟩

/-- C9: `generateMockMarketData` is total over all symbol strings: every
returned record has a positive price and satisfies the OHLC ordering
low ≤ open ≤ price ≤ high (low, open, high being price * 0.95, 0.98, 1.05),
and a symbol outside the seven-entry table falls back to the AAPL base. -/
theorem market_data_total_ohlc (symbol : String) (rv : ℕ) :
    0 < (generateMockMarketData symbol rv).price ∧
    (generateMockMarketData symbol rv).low ≤
      (generateMockMarketData symbol rv).openPrice ∧
    (generateMockMarketData symbol rv).openPrice ≤
      (generateMockMarketData symbol rv).price ∧
    (generateMockMarketData symbol rv).price ≤
      (generateMockMarketData symbol rv).high ∧
    (¬ (symbol = "AAPL" ∨ symbol = "GOOGL" ∨ symbol = "MSFT" ∨
        symbol = "TSLA" ∨ symbol = "AMZN" ∨ symbol = "BTC-USD" ∨
        symbol = "ETH-USD") →
      baseDataFor symbol = baseDataFor "AAPL") := by
  have hp : 0 < (baseDataFor symbol).price := by
    unfold baseDataFor
    split_ifs <;> norm_num
  simp only [generateMockMarketData]
  refine ⟨hp, ?_, ?_, ?_, ?_⟩
  · exact mul_le_mul_of_nonneg_left (by norm_num) hp.le
  · calc (baseDataFor symbol).price * 0.98
        ≤ (baseDataFor symbol).price * 1 :=
          mul_le_mul_of_nonneg_left (by norm_num) hp.le
      _ = (baseDataFor symbol).price := mul_one _
  · calc (baseDataFor symbol).price
        = (baseDataFor symbol).price * 1 := (mul_one _).symm
      _ ≤ (baseDataFor symbol).price * 1.05 :=
          mul_le_mul_of_nonneg_left (by norm_num) hp.le
  · intro h
    push_neg at h
    obtain ⟨h1, h2, h3, h4, h5, h6, h7⟩ := h
    simp [baseDataFor, h1, h2, h3, h4, h5, h6, h7]

/-- C9 witness: the unrecognized symbol XYZ is served the AAPL base data and
its record has a positive price. -/
theorem market_data_witness :
    baseDataFor "XYZ" = baseDataFor "AAPL" ∧
    0 < (generateMockMarketData "XYZ" 0).price :=
  ⟨(market_data_total_ohlc "XYZ" 0).2.2.2.2 (by decide),
    (market_data_total_ohlc "XYZ" 0).1⟩

/-- C3: on a classifier-up signal whose LSTM forecast (189) is below the
current price (190.50), the spec aggregator returns the halved, still
positive score confidence * min(1, |pct|/cap) / 2 = 39/635, while the code
path renders the outright VENDER badge for the same inputs. -/
theorem fuse_halves_disagreement_code_sells :
    fuse Direction.up 189 190.5 0.78 0.05 = Except.ok (39/635) ∧
    (0:ℚ) < 39/635 ∧
    |(39/635 : ℚ)| = 0.78 * min 1 (|((189:ℚ) - 190.5) / 190.5| / 0.05) / 2 ∧
    recomendacion SvmDir.subida 189 190.5 = Recommendation.vender := by
  refine ⟨?_, by norm_num, ?_, by norm_num [recomendacion]⟩
  · norm_num [fuse, dirSign, max_def, min_def, abs_of_pos]
  · norm_num [min_def, abs_of_pos]

/-- C1: every score the spec aggregator returns lies in [-1,1], and a
forecast equal to the current price forces the score to exactly 0 (neutral,
regardless of the classifier direction); yet at such an input the code's
recommendation badge is VENDER for both classifier directions, since the
code has no neutral output at all. -/
theorem fuse_bounds_neutral_vs_code_sells :
    (∀ (dir : Direction) (forecast price conf cap s : ℚ),
        fuse dir forecast price conf cap = Except.ok s →
        (-1 ≤ s ∧ s ≤ 1) ∧ (forecast = price → s = 0)) ∧
    recomendacion SvmDir.subida 190.5 190.5 = Recommendation.vender ∧
    recomendacion SvmDir.bajada 190.5 190.5 = Recommendation.vender := by
  refine ⟨?_, by norm_num [recomendacion], by norm_num [recomendacion]⟩
  intro dir forecast price conf cap s h
  by_cases hval : conf < 0 ∨ 1 < conf ∨ price ≤ 0
  · simp [fuse, hval] at h
  · unfold fuse at h
    rw [if_neg hval] at h
    have hs := Except.ok.inj h
    constructor
    · rw [← hs]
      exact ⟨le_max_left _ _, max_le (by norm_num) (min_le_left _ _)⟩
    · intro hfp
      subst hfp
      rw [← hs]
      simp [sub_self, zero_div, mul_zero, max_def, min_def]

/-- C1 witness: at the valid input direction up, forecast = price = 190.50,
confidence 0.78, cap 0.05, the aggregator returns 0 and the bounds hold. -/
theorem fuse_bounds_neutral_witness :
    ((-1:ℚ) ≤ 0 ∧ (0:ℚ) ≤ 1) ∧ ((190.5:ℚ) = 190.5 → (0:ℚ) = 0) :=
  fuse_bounds_neutral_vs_code_sells.1 Direction.up 190.5 190.5 0.78 0.05 0
    (by norm_num [fuse, dirSign, max_def, min_def])

/-- C4: the spec aggregator fails with InvalidSignalError exactly when the
confidence is outside [0,1] or the current price is non-positive, but the
code path that consumes a prediction never rejects: it maps the prediction
with confidence 3/2 (out of range) and the prediction priced against a
negative current price straight to a COMPRAR badge. -/
theorem fuse_rejects_invalid_code_does_not :
    (∀ (dir : Direction) (forecast price conf cap : ℚ),
        fuse dir forecast price conf cap =
            Except.error InvalidSignalError.invalidSignal ↔
          (conf < 0 ∨ 1 < conf ∨ price ≤ 0)) ∧
    badgeFor ⟨SvmDir.subida, 195.5, 3/2⟩ 190.5 = Recommendation.comprar ∧
    badgeFor ⟨SvmDir.subida, 195.5, 0.78⟩ (-1) = Recommendation.comprar := by
  refine ⟨?_, by norm_num [badgeFor, recomendacion],
    by norm_num [badgeFor, recomendacion]⟩
  intro dir forecast price conf cap
  constructor
  · intro h
    by_contra hval
    simp [fuse, hval] at h
  · intro hval
    simp [fuse, hval]

/-- C5: the 30-day price series of `generateSimpleChart` is not a function
of the symbol and base price alone: for every value of `Math.sin`, two
different `Math.random()` streams (constantly 0 and constantly 1/2) give
different outputs already at the first point, so two calls need not agree. -/
theorem generateSimpleChart_not_deterministic (jsSin : ℚ → ℚ) :
    generateSimpleChart 190.5 jsSin (fun _ => 0) ≠
      generateSimpleChart 190.5 jsSin (fun _ => 1/2) := by
  intro hEq
  have hhead := congrArg List.head? hEq
  have hr : List.range 31 = 0 :: (List.range 30).map Nat.succ := by
    rw [show (31:ℕ) = 30 + 1 from rfl, List.range_succ_eq_map]
  rw [generateSimpleChart, generateSimpleChart, hr] at hhead
  simp only [List.map_cons, List.head?_cons, Option.some.injEq,
    Prod.mk.injEq] at hhead
  have htf := hhead.2
  unfold toFixed2 at htf
  set s := jsSin ((((30:ℕ) - 0 : ℕ) : ℚ) * 0.1) with hsdef
  have h100 : (100:ℚ) ≠ 0 := by norm_num
  have hcast : (round (100 * (190.5 * (1 + (s + 0 * 0.4 - 0.2) * 0.05))) : ℚ)
      = round (100 * (190.5 * (1 + (s + 1/2 * 0.4 - 0.2) * 0.05))) := by
    have h2 := congrArg (fun x : ℚ => x * 100) htf
    simpa [div_mul_cancel₀, h100] using h2
  have hb1 := round_le_add_half
    (100 * (190.5 * (1 + (s + 0 * 0.4 - 0.2) * 0.05)))
  have hb2 := sub_half_lt_round
    (100 * (190.5 * (1 + (s + 1/2 * 0.4 - 0.2) * 0.05)))
  have ha : 100 * (190.5 * (1 + (s + 1/2 * 0.4 - 0.2) * 0.05)) =
      100 * (190.5 * (1 + (s + 0 * 0.4 - 0.2) * 0.05)) + 381/2 := by ring
  rw [ha] at hb2 hcast
  linarith

end ProyectoFinanciero
